import Mathlib

set_option maxHeartbeats 1000000

/-!
Shallow embedding of the swarm orchestration engine of `swarm_skills`
(`swarm/integrator.py`, `swarm/selection.py`, `swarm/routing.py`,
`swarm/spec_resolution.py`, `swarm/executor.py`, `swarm/policy.py`,
`swarm/models.py`, `swarm/runner.py`), together with theorems settling the
specification claims about it.

Filesystem reads, subprocess invocations and git operations are reified as
explicit inputs (their observable outcomes are parameters of the embedded
functions); Python exceptions are reified as `Except`/`PyResult` error
values.  All pure logic (merging, selection ordering, routing, allow-list
filtering, diff counting) is translated directly from the Python source.
-/

namespace Swarm

/-- Lexicographic comparison of char lists; `strLe` below mirrors Python's
code-point-wise string ordering used by `sorted`. -/
def charListLe : List Char → List Char → Bool
  | [], _ => true
  | _ :: _, [] => false
  | a :: as, b :: bs => if a = b then charListLe as bs else decide (a < b)

def strLe (a b : String) : Bool := charListLe a.toList b.toList

/-- Stable insertion used by `sortLe`; an element is placed before the first
element it compares `le` to, so equal keys keep their input order exactly as
Python's stable `sorted` does. -/
def insertLe {α : Type} (le : α → α → Bool) (a : α) : List α → List α
  | [] => [a]
  | b :: bs => if le a b then a :: b :: bs else b :: insertLe le a bs

/-- Stable sort modelling Python's `sorted(xs, key=...)`. -/
def sortLe {α : Type} (le : α → α → Bool) : List α → List α
  | [] => []
  | a :: as => insertLe le a (sortLe le as)

def sortStrings (l : List String) : List String := sortLe strLe l

/-- Python's truthiness test for an optional string: `None` and `""` are falsy. -/
def optStrTruthy : Option String → Bool
  | Option.none => false
  | Option.some s => decide (s ≠ "")

/-- `a or b` on Python strings (empty string is falsy). -/
def pyOrStr (a b : String) : String := if a = "" then b else a

/-- `needle` starts the list `hay` (used for Python's `in` on strings). -/
def startsWithChars : List Char → List Char → Bool
  | [], _ => true
  | _ :: _, [] => false
  | a :: as, b :: bs => decide (a = b) && startsWithChars as bs

/-- Substring containment on char lists. -/
def containsChars (needle : List Char) : List Char → Bool
  | [] => startsWithChars needle []
  | b :: bs => startsWithChars needle (b :: bs) || containsChars needle bs

/-- Python's `needle in hay` on strings. -/
def containsSub (hay needle : String) : Bool := containsChars needle.toList hay.toList

/-- Python's `str.lower()`, mapped over the characters. -/
def strToLower (s : String) : String := String.mk (s.toList.map Char.toLower)

/-- One step of the dedup-preserving-first-seen-order loops
(`for x in xs: if keep x and x not in acc: acc.append(x)`). -/
def dedupStep (keep : String → Prop) [DecidablePred keep]
    (acc : List String) (e : String) : List String :=
  if keep e ∧ e ∉ acc then acc ++ [e] else acc

def dedupFold (keep : String → Prop) [DecidablePred keep]
    (items : List String) : List String :=
  items.foldl (dedupStep keep) []

/-! ## Policy (`swarm/policy.py`) and static role catalog (`swarm/models.py`) -/

/-- `GLOBAL_DENY_PATTERNS` from `swarm/policy.py`. -/
def GLOBAL_DENY_PATTERNS : List String :=
  [".github/workflows/**", "**/.env", "**/.env.*", "**/secrets/**", "**/*secret*"]

structure ExpertDefinition where
  name : String
  role_prompt : String
  allowed_paths : List String
deriving Repr, DecidableEq

/-- `EXPERT_DEFINITIONS` from `swarm/policy.py` (dict modelled as an
association list; keys are unique). -/
def EXPERT_DEFINITIONS : List (String × ExpertDefinition) :=
  [ ("SecurityExpert",
      { name := "SecurityExpert"
        role_prompt := "You are the security specialist. Identify and fix vulnerabilities, enforce safe defaults, and ensure no secrets handling regressions."
        allowed_paths := ["swarm_skills/**", "skills/**", "templates/**", "docs/**", "scripts/**", "tests/**", "*.md"] }),
    ("TestingExpert",
      { name := "TestingExpert"
        role_prompt := "You are the testing specialist. Improve or add deterministic tests and reliability checks for the requested changes."
        allowed_paths := ["tests/**", "swarm_skills/**", "scripts/**", "docs/**", "templates/**"] }),
    ("BackendExpert",
      { name := "BackendExpert"
        role_prompt := "You are the backend specialist. Implement API, business logic, and service-layer changes with deterministic behavior."
        allowed_paths := ["swarm_skills/**", "skills/**", "templates/**", "app/**", "api/**", "server/**", "backend/**", "scripts/**"] }),
    ("FrontendExpert",
      { name := "FrontendExpert"
        role_prompt := "You are the frontend specialist. Implement UI behavior, state, rendering, and client integration changes."
        allowed_paths := ["templates/**", "frontend/**", "app/**", "pages/**", "components/**", "src/**", "public/**", "styles/**"] }),
    ("DBExpert",
      { name := "DBExpert"
        role_prompt := "You are the database specialist. Implement schema, migration, and data-layer changes without touching unrelated frontend files."
        allowed_paths := ["**/migrations/**", "**/models/**", "**/schema.prisma", "**/*.sql", "**/alembic/**", "**/db/**", "artifacts/contracts/**"] }),
    ("DevOpsExpert",
      { name := "DevOpsExpert"
        role_prompt := "You are the DevOps specialist. Improve deterministic build/test execution, scripts, and infra configs without touching secrets."
        allowed_paths := ["Dockerfile", "Dockerfile.*", "docker/**", "k8s/**", "helm/**", "scripts/**", "Makefile", "*.yml", "*.yaml"] }),
    ("DocsExpert",
      { name := "DocsExpert"
        role_prompt := "You are the documentation specialist. Keep architecture and operator docs aligned with behavior and flags."
        allowed_paths := ["docs/**", "README.md", "CHANGELOG.md", "examples/specs/**", "scripts/**", "*.md"] }) ]

/-- Python's `name in EXPERT_DEFINITIONS` (dict key membership). -/
def expertDefined (name : String) : Prop :=
  name ∈ EXPERT_DEFINITIONS.map Prod.fst

instance : DecidablePred expertDefined := fun name =>
  inferInstanceAs (Decidable (name ∈ EXPERT_DEFINITIONS.map Prod.fst))

/-- `required_experts()` from `swarm/models.py`. -/
def required_experts : List String := ["SecurityExpert", "TestingExpert"]

/-- `_OPTIONAL_EXPERT_ORDER` from `swarm/selection.py`. -/
def OPTIONAL_EXPERT_ORDER : List String :=
  ["BackendExpert", "FrontendExpert", "DBExpert", "DevOpsExpert", "DocsExpert"]

/-! ## Data model (`swarm/models.py`) -/

structure ExpertResult where
  expert : String
  status : String
  summary : String
  changed_files : List String
  patch_path : Option String
  transcript_path : Option String
  diff_line_count : Int
deriving Repr, DecidableEq

structure MergeConflict where
  expert : String
  reason : String
  files : List String
deriving Repr, DecidableEq

structure IntegrationOutcome where
  status : String
  applied : List String
  conflicts : List MergeConflict
  skipped : List String
  diff_lines : Int
deriving Repr, DecidableEq

structure GateRouting where
  reason : String
  failing_steps : List String
  experts : List String
deriving Repr, DecidableEq

structure SpecResolutionRecord where
  provided_spec : Option String
  discovered_candidates : List String
  chosen_spec : Option String
  generated_spec : Option String
  mode : String
deriving Repr, DecidableEq

structure ExpertAssignment where
  expert : String
  role_prompt : String
  task : String
  allowed_paths : List String
deriving Repr, DecidableEq

/-! ## Integrator (`swarm/integrator.py`, `merge_expert_results`)

The loop state of `merge_expert_results` is made explicit.  Besides the
five pieces of state the Python function keeps (`applied`, `skipped`,
`conflicts`, `touched_files`, `diff_lines`), the state also records, as pure
instrumentation, which `ExpertResult`s were applied (`appliedTrace`) and for
which ones the `apply_patch` callback was invoked (`applyCalls`); the Python
code does not store these, but they are observable behaviors of the loop
(the order and arguments of `apply_patch` invocations). -/

/-- `sorted(set(result.changed_files) & touched_files)`: the intersection as a
sorted duplicate-free list. -/
def overlapWith (touched changed : List String) : List String :=
  sortStrings ((changed.filter (fun f => decide (f ∈ touched))).dedup)

structure MergeState where
  applied : List String
  skipped : List String
  conflicts : List MergeConflict
  touched : List String
  diff_lines : Int
  appliedTrace : List ExpertResult
  applyCalls : List ExpertResult
deriving Repr, DecidableEq

def initMergeState : MergeState :=
  { applied := [], skipped := [], conflicts := [], touched := []
    diff_lines := 0, appliedTrace := [], applyCalls := [] }

/-- One iteration of the `for result in sorted(results, ...)` loop of
`merge_expert_results`. -/
def mergeStep (apply_patch : ExpertResult → Bool × String)
    (st : MergeState) (result : ExpertResult) : MergeState :=
  if result.status ≠ "pass" then
    { st with skipped := st.skipped ++ [result.expert] }
  else if optStrTruthy result.patch_path = false ∨ result.changed_files = [] then
    { st with skipped := st.skipped ++ [result.expert] }
  else if overlapWith st.touched result.changed_files ≠ [] then
    { st with conflicts := st.conflicts ++
        [{ expert := result.expert, reason := "overlapping_changes"
           files := overlapWith st.touched result.changed_files }] }
  else if (apply_patch result).1 = false then
    { st with
        conflicts := st.conflicts ++
          [{ expert := result.expert
             reason := "apply_failed:" ++ (apply_patch result).2
             files := result.changed_files }]
        applyCalls := st.applyCalls ++ [result] }
  else
    { st with
        applied := st.applied ++ [result.expert]
        touched := st.touched ++ result.changed_files
        diff_lines := st.diff_lines + result.diff_line_count
        appliedTrace := st.appliedTrace ++ [result]
        applyCalls := st.applyCalls ++ [result] }

def resultLe (a b : ExpertResult) : Bool := strLe a.expert b.expert

/-- State after the whole loop of `merge_expert_results`. -/
def mergeFinalState (results : List ExpertResult)
    (apply_patch : ExpertResult → Bool × String) : MergeState :=
  (sortLe resultLe results).foldl (mergeStep apply_patch) initMergeState

/-- `merge_expert_results` from `swarm/integrator.py`. -/
def merge_expert_results (results : List ExpertResult) (max_diff_lines : Int)
    (apply_patch : ExpertResult → Bool × String) : IntegrationOutcome :=
  let st := mergeFinalState results apply_patch
  if st.diff_lines > max_diff_lines then
    { status := "fail", applied := st.applied, conflicts := st.conflicts
      skipped := st.skipped, diff_lines := st.diff_lines }
  else
    { status := if st.conflicts = [] then "pass" else "conflict"
      applied := st.applied, conflicts := st.conflicts
      skipped := st.skipped, diff_lines := st.diff_lines }

/-! ## Worker selection (`swarm/selection.py`)

`scan_repo` inspects the filesystem; its boolean verdict is reified as a
`RepoScan` value and the pure remainder of `select_experts_deterministic`
is translated directly. -/

structure RepoScan where
  backend : Bool
  frontend : Bool
  db : Bool
  devops : Bool
  docs : Bool
deriving Repr, DecidableEq

/-- `_include_docs_from_goal` from `swarm/selection.py`. -/
def include_docs_from_goal (goal : String) : Bool :=
  ["docs", "documentation", "readme", "guide", "changelog"].any
    (fun token => containsSub (strToLower goal) token)

/-- The `selected` list built by `select_experts_deterministic` from the
scan verdict and the goal text. -/
def selection_scan_roles (scan : RepoScan) (goal : String) : List String :=
  required_experts
    ++ (if scan.backend then ["BackendExpert"] else [])
    ++ (if scan.frontend then ["FrontendExpert"] else [])
    ++ (if scan.db then ["DBExpert"] else [])
    ++ (if scan.devops then ["DevOpsExpert"] else [])
    ++ (if scan.docs && include_docs_from_goal goal then ["DocsExpert"] else [])

/-- The raised worker-count bound
(`if max_experts < len(required_experts()): max_experts = len(required_experts())`). -/
def raisedBound (max_experts : Int) : Int :=
  if max_experts < (required_experts.length : Int) then (required_experts.length : Int)
  else max_experts

/-- `select_experts_deterministic` from `swarm/selection.py`, with the
`scan_repo` result supplied as input. -/
def select_experts_deterministic (scan : RepoScan) (goal : String)
    (max_experts : Int) : List String :=
  ((required_experts ++ OPTIONAL_EXPERT_ORDER).foldl
    (dedupStep (fun e => e ∈ selection_scan_roles scan goal)) []).take
    (raisedBound max_experts).toNat

/-- The roster post-processing of `_resolve_selection` in `swarm/runner.py`
(lines 219-224): required experts prepended, first-seen dedup, truncation to
`max(max_experts, len(required_experts()))`. -/
def resolve_selection_merge (augmented : List String) (max_experts : Int) : List String :=
  ((required_experts ++ augmented).foldl (dedupStep (fun _ => True)) []).take
    (max max_experts (required_experts.length : Int)).toNat

/-! ## Python values

A small model of the Python/JSON values flowing through `_extract_json_blob`
payloads and the gate's `pipeline_result` dict. -/

inductive PyValue where
  | none
  | bool (b : Bool)
  | int (n : Int)
  | str (s : String)
  | list (items : List PyValue)
  | dict (entries : List (String × PyValue))

/-- Python truthiness. -/
def pyTruthy : PyValue → Bool
  | PyValue.none => false
  | PyValue.bool b => b
  | PyValue.int n => decide (n ≠ 0)
  | PyValue.str s => decide (s ≠ "")
  | PyValue.list items => !items.isEmpty
  | PyValue.dict entries => !entries.isEmpty

/-- Python `str(...)`.  The renderings of aggregate values are abbreviated;
they are only ever compared against expert role names, which they can never
equal (Python renders lists and dicts with bracket characters). -/
def pyStr : PyValue → String
  | PyValue.none => "None"
  | PyValue.bool true => "True"
  | PyValue.bool false => "False"
  | PyValue.int n => toString n
  | PyValue.str s => s
  | PyValue.list _ => "[...]"
  | PyValue.dict _ => "[dict]"

/-- Python's `isinstance(v, list)`. -/
def isPyList : PyValue → Bool
  | PyValue.list _ => true
  | _ => false

/-- Python `d.get(key, default)` on a dict modelled as an association list. -/
def dictGet (entries : List (String × PyValue)) (key : String)
    (dflt : PyValue) : PyValue :=
  match entries.find? (fun kv => kv.1 == key) with
  | Option.some kv => kv.2
  | Option.none => dflt

/-! ## Planner augmentation (`swarm/selection.py`, `planner_augment_experts`)

The two `subprocess.run` invocations (primary command and the reduced-flag
fallback) are reified as `ToolOutcome` inputs; `subprocess.run` raising
`subprocess.TimeoutExpired` is reified as the `Except.error` value
`"subprocess.TimeoutExpired"`, since `planner_augment_experts` does not
catch it.  `_extract_json_blob` (a JSON scraper over raw stdout) is an
uninterpreted parameter returning the parsed top-level object, `none` on any
parse failure. -/

inductive ToolOutcome where
  | timeout
  | completed (returncode : Int) (stdout stderr : String)

/-- An ASCII single-quote character, used inside embedded message literals. -/
def squote : String := String.singleton (Char.ofNat 39)

/-- The stderr marker that triggers the one-shot reduced-flag retry. -/
def flagErrMarker : String :=
  "unexpected argument " ++ squote ++ "--ask-for-approval" ++ squote

/-- The `additions` list of `planner_augment_experts`: planner-returned names
stringified and filtered to the allow-list of optional roles that are also
policy-defined. -/
def plannerAdditions (items : List PyValue) : List String :=
  (items.map pyStr).filter
    (fun nm => decide (nm ∈ OPTIONAL_EXPERT_ORDER ∧ expertDefined nm))

/-- The `merged` loop of `planner_augment_experts`: accepted additions are
appended to the current roster in the fixed `_OPTIONAL_EXPERT_ORDER`
priority order, skipping roles already present. -/
def mergeAdditions (current : List String) (items : List PyValue) : List String :=
  OPTIONAL_EXPERT_ORDER.foldl
    (fun acc item =>
      if item ∈ plannerAdditions items ∧ item ∉ acc then acc ++ [item] else acc)
    current

/-- Handling of the `add_experts` payload field: a list is merged, anything
else is the `planner_invalid_schema` failure. -/
def plannerPayloadValue (current : List String) : PyValue → List String × Option String
  | PyValue.list items => (mergeAdditions current items, Option.none)
  | _ => (current, Option.some "planner_invalid_schema")

/-- Handling of the `_extract_json_blob` result: `None` is the
`planner_invalid_json` failure. -/
def plannerParsed (current : List String) :
    Option (List (String × PyValue)) → List String × Option String
  | Option.none => (current, Option.some "planner_invalid_json")
  | Option.some payload =>
    plannerPayloadValue current (dictGet payload "add_experts" (PyValue.list []))

/-- The tail of `planner_augment_experts` after the subprocess returned
(`swarm/selection.py` lines 186-209): non-zero exit, JSON-extraction failure
and schema violations each yield the unchanged roster with a note. -/
def planner_post (current : List String) (rc : Int) (out : String)
    (extract_json_blob : String → Option (List (String × PyValue))) :
    List String × Option String :=
  if rc ≠ 0 then (current, Option.some ("planner_failed_exit_" ++ toString rc))
  else plannerParsed current (extract_json_blob out)

/-- `planner_augment_experts` from `swarm/selection.py`.  A completed
invocation whose exit code is non-zero and whose stderr carries the
unsupported-flag marker is retried once with the reduced flag set; each of
the two `subprocess.run` calls can instead raise `TimeoutExpired`, which the
function does not catch. -/
def planner_augment_experts (current : List String)
    (primary fallback : ToolOutcome)
    (extract_json_blob : String → Option (List (String × PyValue))) :
    Except String (List String × Option String) :=
  match primary with
  | ToolOutcome.timeout => Except.error "subprocess.TimeoutExpired"
  | ToolOutcome.completed rc out err =>
    if rc ≠ 0 ∧ containsSub err flagErrMarker then
      match fallback with
      | ToolOutcome.timeout => Except.error "subprocess.TimeoutExpired"
      | ToolOutcome.completed rc2 out2 _err2 =>
        Except.ok (planner_post current rc2 out2 extract_json_blob)
    else Except.ok (planner_post current rc out extract_json_blob)

/-! ## Router (`swarm/routing.py`) -/

def STEP_TO_EXPERTS : List (String × List String) :=
  [ ("template_select", ["DevOpsExpert", "BackendExpert"]),
    ("scaffold_verify", ["DevOpsExpert", "BackendExpert"]),
    ("plan_to_contracts", ["BackendExpert", "DBExpert"]),
    ("backend_build", ["BackendExpert", "DBExpert"]),
    ("frontend_bind", ["FrontendExpert"]),
    ("fullstack_test_harness", ["TestingExpert", "BackendExpert", "FrontendExpert", "DBExpert"]) ]

def KEYWORD_TO_EXPERT : List (String × String) :=
  [ ("frontend", "FrontendExpert"),
    ("ui", "FrontendExpert"),
    ("route", "BackendExpert"),
    ("db", "DBExpert"),
    ("migration", "DBExpert"),
    ("docker", "DevOpsExpert"),
    ("k8s", "DevOpsExpert"),
    ("docs", "DocsExpert") ]

def stepExpertsFor (step_name : String) : List String :=
  match STEP_TO_EXPERTS.find? (fun kv => kv.1 == step_name) with
  | Option.some kv => kv.2
  | Option.none => []

/-- `row.get("status") == "fail"` for one step row. -/
def rowStatusIsFail (rentries : List (String × PyValue)) : Bool :=
  match dictGet rentries "status" PyValue.none with
  | PyValue.str s => decide (s = "fail")
  | _ => false

/-- `str(row.get("step_name") or "")` for one step row. -/
def rowStepName (rentries : List (String × PyValue)) : String :=
  let v := dictGet rentries "step_name" PyValue.none
  pyStr (if pyTruthy v then v else PyValue.str "")

/-- The structured-result pass of `classify_and_route`: collect failing step
names and route their mapped experts (first loop, lines 39-51). -/
def collect_failing (pipeline_result : Option PyValue) : List String × List String :=
  match pipeline_result with
  | Option.some (PyValue.dict entries) =>
    match dictGet entries "steps" (PyValue.list []) with
    | PyValue.list rows =>
      rows.foldl
        (fun (acc : List String × List String) row =>
          match row with
          | PyValue.dict rentries =>
            if rowStatusIsFail rentries then
              let step_name := rowStepName rentries
              if step_name ≠ "" then
                (acc.1 ++ [step_name],
                 (stepExpertsFor step_name).foldl
                   (fun routed e => if e ∉ routed then routed ++ [e] else routed)
                   acc.2)
              else acc
            else acc
          | _ => acc)
        ([], [])
    | _ => ([], [])
  | _ => ([], [])

/-- The keyword pass of `classify_and_route` (lines 53-56). -/
def add_keyword_experts (routed : List String) (gate_report_text : String) : List String :=
  KEYWORD_TO_EXPERT.foldl
    (fun acc kw =>
      if containsSub (strToLower gate_report_text) kw.1 = true ∧ kw.2 ∉ acc then acc ++ [kw.2]
      else acc)
    routed

/-- `classify_and_route` from `swarm/routing.py`. -/
def classify_and_route (pipeline_result : Option PyValue)
    (gate_report_text : String) (max_experts : Int) : GateRouting :=
  let collected := collect_failing pipeline_result
  let failing_steps := collected.1
  let routed := add_keyword_experts collected.2 gate_report_text
  let reason := if failing_steps = [] ∧ routed = [] then "unknown_failure" else "pipeline_failure"
  let final_experts := (required_experts ++ routed).foldl (dedupStep (fun _ => True)) []
  { reason := reason
    failing_steps := sortStrings failing_steps.dedup
    experts := final_experts.take (raisedBound max_experts).toNat }

/-! ## Spec resolution (`swarm/spec_resolution.py`)

Filesystem effects are reified: whether the explicitly provided path exists
as a file, the discovered candidates with their mtimes (`discover_spec_candidates`
output, in its deduplicated path-sorted order), and the path that
`generate_spec` would synthesize.  `resolve_spec` raising
`FileNotFoundError` is reified as `Except.error`. -/

/-- `choose_newest`: rank by `(-mtime_ns, path)` and take the head. -/
def choose_newest (candidates : List (String × Int)) : Option (String × Int) :=
  (sortLe
    (fun a b =>
      if a.2 = b.2 then strLe a.1 b.1 else decide (b.2 < a.2))
    candidates).head?

/-- `resolve_spec` from `swarm/spec_resolution.py`. -/
def resolve_spec (provided_spec : Option String) (providedExists : Bool)
    (candidates : List (String × Int)) (gen_if_missing : Bool)
    (generated : String) :
    Except String (SpecResolutionRecord × Option String) :=
  if optStrTruthy provided_spec then
    match provided_spec with
    | Option.some p =>
      if providedExists = false then
        Except.error ("Provided --spec does not exist: " ++ p)
      else
        Except.ok
          ({ provided_spec := Option.some p, discovered_candidates := []
             chosen_spec := Option.some p, generated_spec := Option.none
             mode := "provided" }, Option.some p)
    | Option.none => Except.error "unreachable"
  else
    let candidates_rel := candidates.map Prod.fst
    match choose_newest candidates with
    | Option.some chosen =>
      Except.ok
        ({ provided_spec := Option.none, discovered_candidates := candidates_rel
           chosen_spec := Option.some chosen.1, generated_spec := Option.none
           mode := "discovered" }, Option.some chosen.1)
    | Option.none =>
      if gen_if_missing then
        Except.ok
          ({ provided_spec := Option.none, discovered_candidates := []
             chosen_spec := Option.some generated, generated_spec := Option.some generated
             mode := "generated" }, Option.some generated)
      else
        Except.ok
          ({ provided_spec := Option.none, discovered_candidates := []
             chosen_spec := Option.none, generated_spec := Option.none
             mode := "missing_error" }, Option.none)

/-- `NO_SPEC_MESSAGE` from `swarm/runner.py`. -/
def NO_SPEC_MESSAGE : String :=
  "No spec found.\nOptions:\n  1) codex-swarm gen-spec --repo . --goal "
    ++ squote ++ "<goal>" ++ squote
    ++ "\n  2) codex-swarm run --repo . --goal " ++ squote ++ "<goal>" ++ squote
    ++ " --gen-spec-if-missing\n  3) Provide --spec /path/to/spec.md"

/-- The missing-spec early exit of `run_swarm` (`swarm/runner.py` lines
316-327): when no spec path was resolved, print `NO_SPEC_MESSAGE`, write a
summary with reason `missing_spec`, and return exit code 2; otherwise
continue (modelled as no early exit). -/
def run_swarm_spec_gate (spec_path : Option String) : Option (String × String × Int) :=
  match spec_path with
  | Option.none => Option.some (NO_SPEC_MESSAGE, "missing_spec", 2)
  | Option.some _ => Option.none

/-! ## Executor (`swarm/executor.py`)

`fnmatch.fnmatch` on POSIX is pattern matching with `*` (matches any
sequence, including `/`), `?` (any single character) and literals; no
pattern in the policy or the deny-list uses character classes, so those are
not modelled.  The matcher uses explicit fuel so that it is structurally
recursive; each step shrinks `pattern.length + name.length`, so the initial
fuel of `pattern.length + name.length + 1` can never run out. -/

def globMatchFuel : Nat → List Char → List Char → Bool
  | 0, _, _ => false
  | _ + 1, [], [] => true
  | _ + 1, [], _ :: _ => false
  | fuel + 1, '*' :: ps, [] => globMatchFuel fuel ps []
  | fuel + 1, '*' :: ps, c :: cs =>
      globMatchFuel fuel ps (c :: cs) || globMatchFuel fuel ('*' :: ps) cs
  | fuel + 1, '?' :: ps, _ :: cs => globMatchFuel fuel ps cs
  | _ + 1, '?' :: _, [] => false
  | fuel + 1, p :: ps, c :: cs => decide (p = c) && globMatchFuel fuel ps cs
  | _ + 1, _ :: _, [] => false

def fnmatch (name pattern : String) : Bool :=
  globMatchFuel (pattern.length + name.length + 1) pattern.toList name.toList

/-- `_matches_any` from `swarm/executor.py` (backslashes normalized to
forward slashes before matching). -/
def matches_any (path : String) (patterns : List String) : Bool :=
  let normalized := String.mk (path.toList.map (fun c => if c = '\\' then '/' else c))
  patterns.any (fun pattern => fnmatch normalized pattern)

/-- `_allowed_file` from `swarm/executor.py`: the global deny-list always
wins; otherwise the path must match an allowed-path glob. -/
def allowed_file (path : String) (allowed_patterns : List String) : Bool :=
  if matches_any path GLOBAL_DENY_PATTERNS then false
  else matches_any path allowed_patterns

/-- `_enforce_allowlist` from `swarm/executor.py`, over the reified list of
changed files reported by `git diff --name-only` (sorted, duplicate-free).
Disallowed files are reverted with `git checkout --`, which restores them to
the base revision, so the re-computed diff afterwards holds exactly the
files that were not reverted; the returned blocked list is
`sorted(set(blocked))`. -/
def enforce_allowlist (changed : List String) (allowed_patterns : List String) :
    List String × List String :=
  let blocked := changed.filter (fun rel => !allowed_file rel allowed_patterns)
  let final_changed := changed.filter (fun rel => allowed_file rel allowed_patterns)
  (final_changed, sortStrings blocked.dedup)

/-- `_count_diff_lines` from `swarm/executor.py`: count `+`/`-` lines of a
patch, excluding the `+++`/`---` file headers. -/
def count_diff_lines (lines : List String) : Int :=
  lines.foldl
    (fun acc raw =>
      if startsWithChars "+++".toList raw.toList || startsWithChars "---".toList raw.toList then acc
      else if startsWithChars "+".toList raw.toList || startsWithChars "-".toList raw.toList then acc + 1
      else acc)
    0

/-- A Python control-flow outcome: a produced value or a raised exception. -/
inductive PyResult (α : Type) where
  | ok (val : α)
  | exn (msg : String)

def pyBind {α β : Type} : PyResult α → (α → PyResult β) → PyResult β
  | PyResult.ok a, f => f a
  | PyResult.exn m, _ => PyResult.exn m

/-- Whether the worker body finished with a value or propagated an exception. -/
def pyIsOk {α : Type} : PyResult α → Bool
  | PyResult.ok _ => true
  | PyResult.exn _ => false

/-- `summary = str(payload.get("summary") or "").strip()` with the fallback to
the first non-empty line of raw output (`swarm/executor.py` lines 269-273). -/
def summaryOf (extract : String → Option (List (String × PyValue)))
    (stdout stderr : String) : String :=
  let payload := (extract stdout).getD []
  let v := dictGet payload "summary" PyValue.none
  let s := (pyStr (if pyTruthy v then v else PyValue.str "")).trim
  if s ≠ "" then s
  else
    let base := (pyOrStr stdout (pyOrStr stderr "no summary returned")).trim
    if base = "" then "no summary returned"
    else ((base.splitOn "\n").headD "no summary returned")

/-- The `try:` body of `_execute_one` (`swarm/executor.py` lines 245-295).
The effectful steps — running the codex subprocess (`_run_codex`, whose
internal timeout handling already yields `(124, "", "timeout")` rather than
raising), enforcing the allow-list, and computing the patch — are reified as
`PyResult` inputs; an `exn` at any step propagates out of the body. -/
def execute_one_body (assignment : ExpertAssignment)
    (codex : PyResult (Int × String × String))
    (enforce : PyResult (List String × List String))
    (patch_lines : PyResult (List String))
    (extract : String → Option (List (String × PyValue)))
    (patch_path transcript_path : String) : PyResult ExpertResult :=
  pyBind codex (fun c =>
  pyBind enforce (fun e =>
  pyBind patch_lines (fun patch =>
    let code := c.1
    let stdout := c.2.1
    let stderr := c.2.2
    let changed_files := e.1
    let diff_lines := count_diff_lines patch
    let summary := summaryOf extract stdout stderr
    PyResult.ok
      { expert := assignment.expert
        status := if code = 0 then "pass" else "fail"
        summary := summary
        changed_files := changed_files
        patch_path := Option.some patch_path
        transcript_path := Option.some transcript_path
        diff_line_count := diff_lines })))

/-- `_execute_one` from `swarm/executor.py`, with the workspace lifecycle
made explicit.  The returned `Bool` records whether
`_cleanup_worktree` ran; in the source it is invoked in the `finally:`
block guarding the whole body, so it runs on every exit of the body —
normal return, captured tool failure or timeout, and any raised exception —
before the result or exception propagates.  In dry-run mode and on
worktree-allocation failure the body (and hence the `finally`) is never
entered, matching the source. -/
def execute_one (dry_run : Bool) (assignment : ExpertAssignment)
    (prepare : Bool × String)
    (codex : PyResult (Int × String × String))
    (enforce : PyResult (List String × List String))
    (patch_lines : PyResult (List String))
    (extract : String → Option (List (String × PyValue)))
    (patch_path transcript_path : String) : PyResult ExpertResult × Bool :=
  if dry_run then
    (PyResult.ok
      { expert := assignment.expert
        status := "pass"
        summary := "dry-run simulated output; no file edits applied"
        changed_files := []
        patch_path := Option.some patch_path
        transcript_path := Option.some transcript_path
        diff_line_count := 0 }, false)
  else if prepare.1 = false then
    (PyResult.ok
      { expert := assignment.expert
        status := "fail"
        summary := prepare.2
        changed_files := []
        patch_path := Option.none
        transcript_path := Option.some transcript_path
        diff_line_count := 0 }, false)
  else
    (execute_one_body assignment codex enforce patch_lines extract patch_path transcript_path,
     true)

/-! ## Derived notions used by the theorems -/

/-- Two worker results own disjoint changed-file sets. -/
def FilesDisjoint (a b : ExpertResult) : Prop :=
  ∀ f, f ∈ a.changed_files → f ∉ b.changed_files

/-- Invariant of the `merge_expert_results` loop state: every applied
result's files are in `touched`, applied results never share files, the
`applied` role list and running total mirror the applied trace, and
`apply_patch` was invoked for every applied result. -/
def MergeInvariant (st : MergeState) : Prop :=
  (∀ r ∈ st.appliedTrace, ∀ f ∈ r.changed_files, f ∈ st.touched) ∧
  st.appliedTrace.Pairwise FilesDisjoint ∧
  st.applied = st.appliedTrace.map (fun r => r.expert) ∧
  st.diff_lines = (st.appliedTrace.map (fun r => r.diff_line_count)).sum ∧
  (∀ r ∈ st.appliedTrace, r ∈ st.applyCalls)

/-- The three role-name buckets of an integration pass, concatenated. -/
def bucketNames (st : MergeState) : List String :=
  st.applied ++ (st.skipped ++ st.conflicts.map (fun c => c.expert))

/-! ## Concrete fixtures for witnesses and counterexamples -/

def apOk : ExpertResult → Bool × String := fun _ => (true, "ok")

def backendResult80 : ExpertResult :=
  { expert := "BackendExpert", status := "pass", summary := "ok"
    changed_files := ["swarm_skills/a.py"], patch_path := Option.some "/tmp/a.patch"
    transcript_path := Option.none, diff_line_count := 80 }

def frontendResult80 : ExpertResult :=
  { expert := "FrontendExpert", status := "pass", summary := "ok"
    changed_files := ["app/b.tsx"], patch_path := Option.some "/tmp/b.patch"
    transcript_path := Option.none, diff_line_count := 80 }

def testingOverlapResult : ExpertResult :=
  { expert := "TestingExpert", status := "pass", summary := "ok"
    changed_files := ["swarm_skills/a.py"], patch_path := Option.some "/tmp/t.patch"
    transcript_path := Option.none, diff_line_count := 8 }

def failedResult : ExpertResult :=
  { expert := "DocsExpert", status := "fail", summary := "boom"
    changed_files := ["docs/x.md"], patch_path := Option.some "/tmp/d.patch"
    transcript_path := Option.none, diff_line_count := 3 }

/-- A merge-loop state in which `swarm_skills/a.py` was already applied. -/
def touchedState : MergeState :=
  { applied := ["BackendExpert"], skipped := [], conflicts := []
    touched := ["swarm_skills/a.py"], diff_lines := 10
    appliedTrace := [], applyCalls := [] }

/-- A gate payload whose structured steps all pass. -/
def gatePayloadAllPass : PyValue :=
  PyValue.dict
    [("overall_status", PyValue.str "fail"),
     ("steps", PyValue.list
        [PyValue.dict [("step_name", PyValue.str "gates_run"), ("status", PyValue.str "pass")]])]

/-- A gate payload in which step `frontend_bind` failed. -/
def gatePayloadFrontendFail : PyValue :=
  PyValue.dict
    [("steps", PyValue.list
        [PyValue.dict [("step_name", PyValue.str "frontend_bind"), ("status", PyValue.str "fail")]])]

/-- A JSON extractor that always fails to parse. -/
def extractFail : String → Option (List (String × PyValue)) := fun _ => Option.none

/-- A concrete assignment for executor witnesses. -/
def secAssignment : ExpertAssignment :=
  { expert := "SecurityExpert", role_prompt := "p", task := "t", allowed_paths := [] }

/-- A JSON extractor returning a planner payload listing two additions in
reverse priority order. -/
def extractPlanner : String → Option (List (String × PyValue)) := fun _ =>
  Option.some [("add_experts", PyValue.list [PyValue.str "DBExpert", PyValue.str "BackendExpert"])]

/-! ## Helper lemmas -/

theorem insertLe_perm {α : Type} (le : α → α → Bool) (a : α) :
    ∀ l : List α, (insertLe le a l).Perm (a :: l)
  | [] => List.Perm.refl _
  | b :: bs => by
    simp only [insertLe]
    by_cases h : le a b = true
    · simp [h]
    · simp only [h, if_false]
      exact ((insertLe_perm le a bs).cons b).trans (List.Perm.swap a b bs)

theorem sortLe_perm {α : Type} (le : α → α → Bool) :
    ∀ l : List α, (sortLe le l).Perm l
  | [] => List.Perm.refl _
  | a :: as => (insertLe_perm le a (sortLe le as)).trans ((sortLe_perm le as).cons a)

theorem dedupFold_go_suffix (keep : String → Prop) [DecidablePred keep] :
    ∀ (l : List String) (acc : List String), ∃ t, l.foldl (dedupStep keep) acc = acc ++ t := by
  intro l
  induction l with
  | nil => intro acc; exact ⟨[], by simp⟩
  | cons e l ih =>
    intro acc
    simp only [List.foldl_cons]
    by_cases h : keep e ∧ e ∉ acc
    · obtain ⟨t, ht⟩ := ih (acc ++ [e])
      exact ⟨[e] ++ t, by simp [dedupStep, h, ht]⟩
    · obtain ⟨t, ht⟩ := ih acc
      exact ⟨t, by simp [dedupStep, h, ht]⟩

theorem dedupFold_go_nodup (keep : String → Prop) [DecidablePred keep] :
    ∀ (l : List String) (acc : List String), acc.Nodup → (l.foldl (dedupStep keep) acc).Nodup := by
  intro l
  induction l with
  | nil => intro acc h; simpa using h
  | cons e l ih =>
    intro acc hacc
    simp only [List.foldl_cons]
    by_cases h : keep e ∧ e ∉ acc
    · rw [dedupStep, if_pos h]
      refine ih (acc ++ [e]) ?_
      rw [List.nodup_append]
      refine ⟨hacc, List.nodup_singleton e, ?_⟩
      intro a ha hb
      rw [List.mem_singleton] at hb
      exact h.2 (hb ▸ ha)
    · rw [dedupStep, if_neg h]
      exact ih acc hacc

/-- Running one of the first-seen-dedup loops over a list headed by the two
required roles (with both kept) yields a list headed by the two required
roles. -/
theorem dedupFold_req_head (keep : String → Prop) [DecidablePred keep]
    (hS : keep "SecurityExpert") (hT : keep "TestingExpert") (tail : List String) :
    ∃ t, ("SecurityExpert" :: "TestingExpert" :: tail).foldl (dedupStep keep) []
      = "SecurityExpert" :: "TestingExpert" :: t := by
  have h1 : dedupStep keep [] "SecurityExpert" = ["SecurityExpert"] := by
    rw [dedupStep, if_pos ⟨hS, by simp⟩]
    rfl
  have h2 : dedupStep keep ["SecurityExpert"] "TestingExpert"
      = ["SecurityExpert", "TestingExpert"] := by
    rw [dedupStep, if_pos ⟨hT, by decide⟩]
    rfl
  obtain ⟨t, ht⟩ := dedupFold_go_suffix keep tail ["SecurityExpert", "TestingExpert"]
  refine ⟨t, ?_⟩
  simp only [List.foldl_cons, h1, h2]
  simpa using ht

theorem take_take_two {α : Type} (x y : α) (t : List α) (n : Nat) (hn : 2 ≤ n) :
    ((x :: y :: t).take n).take 2 = [x, y] := by
  rw [List.take_take]
  have hmin : min 2 n = 2 := by omega
  rw [hmin]
  rfl

/-- Moving a sandwiched singleton to the back is a permutation. -/
theorem perm_snoc_out {α : Type} (X Y : List α) (e : α) :
    (X ++ ([e] ++ Y)).Perm ((X ++ Y) ++ [e]) := by
  have h1 : (X ++ ([e] ++ Y)).Perm (X ++ (Y ++ [e])) :=
    List.Perm.append_left X List.perm_append_comm
  have h2 : X ++ (Y ++ [e]) = (X ++ Y) ++ [e] := (List.append_assoc X Y [e]).symm
  rw [h2] at h1
  exact h1

theorem sortStrings_eq_nil (l : List String) : sortStrings l = [] ↔ l = [] := by
  constructor
  · intro h
    have hp := sortLe_perm strLe l
    rw [sortStrings] at h
    rw [h] at hp
    exact hp.symm.eq_nil
  · intro h
    rw [h]
    rfl

theorem overlapWith_eq_nil (touched changed : List String) :
    overlapWith touched changed = [] ↔ ∀ f ∈ changed, f ∉ touched := by
  rw [overlapWith, sortStrings_eq_nil, List.dedup_eq_nil, List.filter_eq_nil_iff]
  simp

/-! ## Integrator lemmas -/

/-- The outcome copies every bucket and the running total from the final
loop state; only `status` depends on the budget check. -/
theorem merge_projections (results : List ExpertResult) (budget : Int)
    (ap : ExpertResult → Bool × String) :
    (merge_expert_results results budget ap).applied = (mergeFinalState results ap).applied ∧
    (merge_expert_results results budget ap).skipped = (mergeFinalState results ap).skipped ∧
    (merge_expert_results results budget ap).conflicts = (mergeFinalState results ap).conflicts ∧
    (merge_expert_results results budget ap).diff_lines = (mergeFinalState results ap).diff_lines := by
  rw [merge_expert_results]
  by_cases h : (mergeFinalState results ap).diff_lines > budget
  · simp [if_pos h]
  · simp [if_neg h]

theorem merge_status_eq (results : List ExpertResult) (budget : Int)
    (ap : ExpertResult → Bool × String) :
    (merge_expert_results results budget ap).status =
      if (mergeFinalState results ap).diff_lines > budget then "fail"
      else if (mergeFinalState results ap).conflicts = [] then "pass" else "conflict" := by
  rw [merge_expert_results]
  by_cases h : (mergeFinalState results ap).diff_lines > budget
  · simp only [if_pos h]
  · simp only [if_neg h]

theorem mergeStep_inv (ap : ExpertResult → Bool × String) (st : MergeState)
    (r : ExpertResult) (h : MergeInvariant st) : MergeInvariant (mergeStep ap st r) := by
  obtain ⟨hTouch, hDisj, hApp, hDiff, hCalls⟩ := h
  rw [mergeStep]
  by_cases h1 : r.status ≠ "pass"
  · rw [if_pos h1]
    exact ⟨hTouch, hDisj, hApp, hDiff, hCalls⟩
  · rw [if_neg h1]
    by_cases h2 : optStrTruthy r.patch_path = false ∨ r.changed_files = []
    · rw [if_pos h2]
      exact ⟨hTouch, hDisj, hApp, hDiff, hCalls⟩
    · rw [if_neg h2]
      by_cases h3 : overlapWith st.touched r.changed_files ≠ []
      · rw [if_pos h3]
        exact ⟨hTouch, hDisj, hApp, hDiff, hCalls⟩
      · rw [if_neg h3]
        have hOverlap : ∀ f ∈ r.changed_files, f ∉ st.touched := by
          rw [← overlapWith_eq_nil st.touched r.changed_files]
          exact not_not.mp h3
        by_cases h4 : (ap r).1 = false
        · rw [if_pos h4]
          refine ⟨hTouch, hDisj, hApp, hDiff, ?_⟩
          intro r' hr'
          exact List.mem_append_left _ (hCalls r' hr')
        · rw [if_neg h4]
          refine ⟨?_, ?_, ?_, ?_, ?_⟩
          · intro r' hr' f hf
            rcases List.mem_append.mp hr' with hold | hnew
            · exact List.mem_append_left _ (hTouch r' hold f hf)
            · rw [List.mem_singleton] at hnew
              subst hnew
              exact List.mem_append_right _ hf
          · rw [List.pairwise_append]
            refine ⟨hDisj, List.pairwise_singleton _ _, ?_⟩
            intro a ha b hb
            rw [List.mem_singleton] at hb
            subst hb
            intro f hfa hfb
            exact hOverlap f hfb (hTouch a ha f hfa)
          · simp [hApp]
          · simp [hDiff]
          · intro r' hr'
            rcases List.mem_append.mp hr' with hold | hnew
            · exact List.mem_append_left _ (hCalls r' hold)
            · exact List.mem_append_right _ hnew

theorem foldl_merge_inv (ap : ExpertResult → Bool × String) :
    ∀ (l : List ExpertResult) (st : MergeState),
      MergeInvariant st → MergeInvariant (l.foldl (mergeStep ap) st) := by
  intro l
  induction l with
  | nil => intro st h; simpa using h
  | cons r l ih =>
    intro st h
    simp only [List.foldl_cons]
    exact ih (mergeStep ap st r) (mergeStep_inv ap st r h)

theorem mergeFinalState_inv (results : List ExpertResult)
    (ap : ExpertResult → Bool × String) : MergeInvariant (mergeFinalState results ap) := by
  refine foldl_merge_inv ap _ initMergeState ?_
  exact ⟨by simp [initMergeState], by simp [initMergeState], rfl, rfl, by simp [initMergeState]⟩

/-- Each loop iteration adds the processed result's role name to exactly one
of the three buckets. -/
theorem mergeStep_buckets (ap : ExpertResult → Bool × String) (st : MergeState)
    (r : ExpertResult) :
    (bucketNames (mergeStep ap st r)).Perm (bucketNames st ++ [r.expert]) := by
  rw [mergeStep]
  by_cases h1 : r.status ≠ "pass"
  · rw [if_pos h1]
    rw [bucketNames, bucketNames]
    have := perm_snoc_out st.skipped (st.conflicts.map (fun c => c.expert)) r.expert
    have h2 : (st.skipped ++ [r.expert]) ++ st.conflicts.map (fun c => c.expert)
        = st.skipped ++ ([r.expert] ++ st.conflicts.map (fun c => c.expert)) :=
      List.append_assoc _ _ _
    simp only [h2]
    have h3 := List.Perm.append_left st.applied
      (perm_snoc_out st.skipped (st.conflicts.map (fun c => c.expert)) r.expert)
    refine h3.trans ?_
    rw [← List.append_assoc]
  · rw [if_neg h1]
    by_cases h2 : optStrTruthy r.patch_path = false ∨ r.changed_files = []
    · rw [if_pos h2]
      rw [bucketNames, bucketNames]
      have h3 : (st.skipped ++ [r.expert]) ++ st.conflicts.map (fun c => c.expert)
          = st.skipped ++ ([r.expert] ++ st.conflicts.map (fun c => c.expert)) :=
        List.append_assoc _ _ _
      simp only [h3]
      have h4 := List.Perm.append_left st.applied
        (perm_snoc_out st.skipped (st.conflicts.map (fun c => c.expert)) r.expert)
      refine h4.trans ?_
      rw [← List.append_assoc]
    · rw [if_neg h2]
      by_cases h3 : overlapWith st.touched r.changed_files ≠ []
      · rw [if_pos h3]
        rw [bucketNames, bucketNames]
        simp only [List.map_append, List.map_cons, List.map_nil]
        rw [← List.append_assoc, ← List.append_assoc, ← List.append_assoc]
      · rw [if_neg h3]
        by_cases h4 : (ap r).1 = false
        · rw [if_pos h4]
          rw [bucketNames, bucketNames]
          simp only [List.map_append, List.map_cons, List.map_nil]
          rw [← List.append_assoc, ← List.append_assoc, ← List.append_assoc]
        · rw [if_neg h4]
          rw [bucketNames, bucketNames]
          have h5 : (st.applied ++ [r.expert])
                ++ (st.skipped ++ st.conflicts.map (fun c => c.expert))
              = st.applied ++ ([r.expert]
                ++ (st.skipped ++ st.conflicts.map (fun c => c.expert))) :=
            List.append_assoc _ _ _
          simp only [h5]
          have h6 := perm_snoc_out st.applied
            (st.skipped ++ st.conflicts.map (fun c => c.expert)) r.expert
          refine h6.trans ?_
          rw [← List.append_assoc]

theorem foldl_merge_buckets (ap : ExpertResult → Bool × String) :
    ∀ (l : List ExpertResult) (st : MergeState),
      (bucketNames (l.foldl (mergeStep ap) st)).Perm
        (bucketNames st ++ l.map (fun r => r.expert)) := by
  intro l
  induction l with
  | nil => intro st; simp
  | cons r l ih =>
    intro st
    simp only [List.foldl_cons, List.map_cons]
    refine (ih (mergeStep ap st r)).trans ?_
    have h1 := List.Perm.append_right (l.map (fun r => r.expert)) (mergeStep_buckets ap st r)
    refine h1.trans ?_
    rw [List.append_assoc]
    simp

theorem merge_buckets_perm (results : List ExpertResult) (ap : ExpertResult → Bool × String) :
    (bucketNames (mergeFinalState results ap)).Perm (results.map (fun r => r.expert)) := by
  have h1 := foldl_merge_buckets ap (sortLe resultLe results) initMergeState
  have h2 : bucketNames initMergeState = [] := rfl
  rw [mergeFinalState]
  refine h1.trans ?_
  rw [h2, List.nil_append]
  exact List.Perm.map _ (sortLe_perm resultLe results)

/-! ## Claim theorems: integrator (C1, C2, C3, C10) -/

/-- Claim C1: in every integration outcome no file appears in the changed-file
sets of more than one applied role — the applied results own pairwise
disjoint changed-file sets and the outcome's `applied` list is exactly their
role names; moreover a passing role with changes whose files overlap the
already-applied set is turned into an `overlapping_changes` conflict carrying
the overlapping paths, leaving the applied set untouched (the loop then
simply continues with the next role). -/
theorem applied_roles_never_share_files (results : List ExpertResult) (budget : Int)
    (ap : ExpertResult → Bool × String) :
    (merge_expert_results results budget ap).applied
        = (mergeFinalState results ap).appliedTrace.map (fun r => r.expert) ∧
    (mergeFinalState results ap).appliedTrace.Pairwise FilesDisjoint ∧
    (∀ st r, r.status = "pass" → optStrTruthy r.patch_path = true →
        r.changed_files ≠ [] → overlapWith st.touched r.changed_files ≠ [] →
        mergeStep ap st r = { st with conflicts := st.conflicts ++
          [{ expert := r.expert, reason := "overlapping_changes"
             files := overlapWith st.touched r.changed_files }] }) := by
  refine ⟨?_, (mergeFinalState_inv results ap).2.1, ?_⟩
  · rw [(merge_projections results budget ap).1, (mergeFinalState_inv results ap).2.2.1]
  · intro st r hs hp hc hov
    rw [mergeStep, if_neg (by simp [hs]), if_neg (by simp [hp, hc]), if_pos hov]

/-- Witness for C1: a passing testing result touching an already-applied file
is recorded as an `overlapping_changes` conflict and nothing is applied. -/
theorem applied_roles_never_share_files_witness :
    mergeStep apOk touchedState testingOverlapResult
      = { touchedState with conflicts := touchedState.conflicts ++
          [{ expert := testingOverlapResult.expert, reason := "overlapping_changes"
             files := overlapWith touchedState.touched testingOverlapResult.changed_files }] } :=
  (applied_roles_never_share_files [] 0 apOk).2.2 touchedState testingOverlapResult
    (by decide) (by decide) (by decide) (by decide)

/-- Claim C2: if the accumulated change-size exceeds the budget the outcome
status is `fail` (never `pass` or `conflict`); otherwise the status is
`pass` exactly when there were no conflicts and `conflict` when there were. -/
theorem merge_status_by_budget (results : List ExpertResult) (budget : Int)
    (ap : ExpertResult → Bool × String) :
    ((merge_expert_results results budget ap).diff_lines > budget →
      (merge_expert_results results budget ap).status = "fail" ∧
      (merge_expert_results results budget ap).status ≠ "pass" ∧
      (merge_expert_results results budget ap).status ≠ "conflict") ∧
    ((merge_expert_results results budget ap).diff_lines ≤ budget →
      ((merge_expert_results results budget ap).conflicts = [] →
        (merge_expert_results results budget ap).status = "pass") ∧
      ((merge_expert_results results budget ap).conflicts ≠ [] →
        (merge_expert_results results budget ap).status = "conflict")) := by
  have hp := merge_projections results budget ap
  rw [merge_status_eq results budget ap, hp.2.2.2, hp.2.2.1]
  by_cases h : (mergeFinalState results ap).diff_lines > budget
  · rw [if_pos h]
    constructor
    · intro _
      exact ⟨rfl, by decide, by decide⟩
    · intro hle
      omega
  · rw [if_neg h]
    constructor
    · intro hover
      exact absurd hover h
    · intro _
      constructor
      · intro hc
        rw [if_pos hc]
      · intro hc
        rw [if_neg hc]

/-- Witness for C2: two cleanly applied results totalling 160 changed lines
against a budget of 100 yield status `fail`. -/
theorem merge_status_by_budget_witness :
    (merge_expert_results [backendResult80, frontendResult80] 100 apOk).status = "fail" :=
  ((merge_status_by_budget [backendResult80, frontendResult80] 100 apOk).1 (by decide)).1

/-- Counterexample to claim C3 as stated: on a budget-exceeded outcome the
apply function has already been invoked — both roles were applied into the
workspace before the post-hoc budget check flipped the status to `fail`, so
the rejection is not atomic in the sense of withholding application. -/
theorem budget_exceeded_despite_applies :
    (merge_expert_results [backendResult80, frontendResult80] 100 apOk).status = "fail" ∧
    (merge_expert_results [backendResult80, frontendResult80] 100 apOk).applied
      = ["BackendExpert", "FrontendExpert"] ∧
    (mergeFinalState [backendResult80, frontendResult80] apOk).applyCalls.map
        (fun r => r.expert)
      = ["BackendExpert", "FrontendExpert"] := by decide

/-- Claim C3 as amended: when the accumulated change-size exceeds the budget
the whole iteration's integration is rejected by marking the outcome `fail`
(which the runner treats as terminal, without committing the integration
workspace), but the budget is only checked after all results are processed:
the apply function has by then been invoked for every role listed as
applied. -/
theorem merge_budget_rejection_after_application (results : List ExpertResult)
    (budget : Int) (ap : ExpertResult → Bool × String) :
    ((merge_expert_results results budget ap).diff_lines > budget →
      (merge_expert_results results budget ap).status = "fail") ∧
    (∀ e ∈ (merge_expert_results results budget ap).applied,
      e ∈ (mergeFinalState results ap).applyCalls.map (fun r => r.expert)) := by
  have hp := merge_projections results budget ap
  have inv := mergeFinalState_inv results ap
  constructor
  · rw [merge_status_eq results budget ap, hp.2.2.2]
    intro h
    rw [if_pos h]
  · intro e he
    rw [hp.1, inv.2.2.1] at he
    obtain ⟨r, hr, rfl⟩ := List.mem_map.mp he
    exact List.mem_map.mpr ⟨r, inv.2.2.2.2 r hr, rfl⟩

/-- Witness for amended C3: the 160-line two-role batch against budget 100 is
marked `fail`, and each applied role received an apply invocation. -/
theorem merge_budget_rejection_after_application_witness :
    (merge_expert_results [backendResult80, frontendResult80] 100 apOk).status = "fail" ∧
    "BackendExpert" ∈ (mergeFinalState [backendResult80, frontendResult80] apOk).applyCalls.map
      (fun r => r.expert) :=
  ⟨(merge_budget_rejection_after_application [backendResult80, frontendResult80] 100 apOk).1
      (by decide),
   (merge_budget_rejection_after_application [backendResult80, frontendResult80] 100 apOk).2
      "BackendExpert" (by decide)⟩

/-- Claim C10: every input worker result is accounted for in exactly one of
the outcome's three buckets — the bucket role names are a permutation of the
input role names (so the bucket sizes sum to the input size and nothing is
dropped) — and the reported total change-size is the sum of the diff line
counts of exactly the applied results. -/
theorem merge_partitions_results (results : List ExpertResult) (budget : Int)
    (ap : ExpertResult → Bool × String) :
    (merge_expert_results results budget ap).applied.length
      + (merge_expert_results results budget ap).skipped.length
      + (merge_expert_results results budget ap).conflicts.length
      = results.length ∧
    ((merge_expert_results results budget ap).applied ++
      ((merge_expert_results results budget ap).skipped ++
        (merge_expert_results results budget ap).conflicts.map (fun c => c.expert))).Perm
      (results.map (fun r => r.expert)) ∧
    (merge_expert_results results budget ap).diff_lines
      = ((mergeFinalState results ap).appliedTrace.map (fun r => r.diff_line_count)).sum ∧
    (merge_expert_results results budget ap).applied
      = (mergeFinalState results ap).appliedTrace.map (fun r => r.expert) := by
  have hp := merge_projections results budget ap
  have inv := mergeFinalState_inv results ap
  have hperm : ((merge_expert_results results budget ap).applied ++
      ((merge_expert_results results budget ap).skipped ++
        (merge_expert_results results budget ap).conflicts.map (fun c => c.expert))).Perm
      (results.map (fun r => r.expert)) := by
    rw [hp.1, hp.2.1, hp.2.2.1]
    exact merge_buckets_perm results ap
  refine ⟨?_, hperm, ?_, ?_⟩
  · have hlen := hperm.length_eq
    simp only [List.length_append, List.length_map] at hlen
    omega
  · rw [hp.2.2.2, inv.2.2.2.1]
  · rw [hp.1, inv.2.2.1]

/-! ## Claim theorems: worker selection (C4) -/

/-- Claim C4: for every repository scan verdict, goal, and requested maximum
worker count of at least 2, the deterministic roster — and likewise the
roster assembled after planner augmentation, whatever list the augmentation
produced — has SecurityExpert and TestingExpert in the first two positions,
is deduplicated, and has length at most the requested maximum (the bound
having been silently raised to at least the required-role count). -/
theorem roster_contains_required (scan : RepoScan) (goal : String) (m : Int)
    (hm : 2 ≤ m) :
    (select_experts_deterministic scan goal m).take 2 = ["SecurityExpert", "TestingExpert"] ∧
    (select_experts_deterministic scan goal m).Nodup ∧
    (select_experts_deterministic scan goal m).length ≤ m.toNat ∧
    ∀ augmented : List String,
      (resolve_selection_merge augmented m).take 2 = ["SecurityExpert", "TestingExpert"] ∧
      (resolve_selection_merge augmented m).Nodup ∧
      (resolve_selection_merge augmented m).length ≤ m.toNat := by
  have hlen2 : (required_experts.length : Int) = 2 := by decide
  have hS : "SecurityExpert" ∈ selection_scan_roles scan goal := by
    simp [selection_scan_roles, required_experts]
  have hT : "TestingExpert" ∈ selection_scan_roles scan goal := by
    simp [selection_scan_roles, required_experts]
  have hbound : raisedBound m = m := by
    rw [raisedBound, hlen2, if_neg (by omega)]
  have hcands : required_experts ++ OPTIONAL_EXPERT_ORDER
      = "SecurityExpert" :: "TestingExpert" :: OPTIONAL_EXPERT_ORDER := rfl
  obtain ⟨t, ht⟩ := dedupFold_req_head (fun e => e ∈ selection_scan_roles scan goal)
    hS hT OPTIONAL_EXPERT_ORDER
  have hsel : select_experts_deterministic scan goal m
      = ("SecurityExpert" :: "TestingExpert" :: t).take m.toNat := by
    rw [select_experts_deterministic, hcands, ht, hbound]
  have hnod : (("SecurityExpert" :: "TestingExpert" :: OPTIONAL_EXPERT_ORDER).foldl
      (dedupStep (fun e => e ∈ selection_scan_roles scan goal)) []).Nodup :=
    dedupFold_go_nodup _ _ [] List.nodup_nil
  rw [ht] at hnod
  have htoNat : 2 ≤ m.toNat := by omega
  refine ⟨?_, ?_, ?_, ?_⟩
  · rw [hsel]
    exact take_take_two _ _ t m.toNat htoNat
  · rw [hsel]
    exact hnod.sublist (List.take_sublist _ _)
  · rw [hsel, List.length_take]
    omega
  · intro augmented
    have hcands₂ : required_experts ++ augmented
        = "SecurityExpert" :: "TestingExpert" :: augmented := rfl
    obtain ⟨u, hu⟩ := dedupFold_req_head (fun _ => True) trivial trivial augmented
    have hmax : max m (required_experts.length : Int) = m := by
      rw [hlen2]
      omega
    have hres : resolve_selection_merge augmented m
        = ("SecurityExpert" :: "TestingExpert" :: u).take m.toNat := by
      rw [resolve_selection_merge, hcands₂, hu, hmax]
    have hnod₂ : (("SecurityExpert" :: "TestingExpert" :: augmented).foldl
        (dedupStep (fun _ => True)) []).Nodup :=
      dedupFold_go_nodup _ _ [] List.nodup_nil
    rw [hu] at hnod₂
    refine ⟨?_, ?_, ?_⟩
    · rw [hres]
      exact take_take_two _ _ u m.toNat htoNat
    · rw [hres]
      exact hnod₂.sublist (List.take_sublist _ _)
    · rw [hres, List.length_take]
      omega

/-- Witness for C4: a fully-detected stack with a docs goal and maximum 3
yields a roster headed by the two required roles, and so does the
post-planner merge. -/
theorem roster_contains_required_witness :
    (select_experts_deterministic
        { backend := true, frontend := true, db := true, devops := true, docs := true }
        "Update the DOCS" 3).take 2 = ["SecurityExpert", "TestingExpert"] ∧
    (resolve_selection_merge ["BackendExpert", "SecurityExpert"] 3).take 2
      = ["SecurityExpert", "TestingExpert"] :=
  ⟨(roster_contains_required
      { backend := true, frontend := true, db := true, devops := true, docs := true }
      "Update the DOCS" 3 (by decide)).1,
   ((roster_contains_required
      { backend := true, frontend := true, db := true, devops := true, docs := true }
      "Update the DOCS" 3 (by decide)).2.2.2 ["BackendExpert", "SecurityExpert"]).1⟩

/-! ## Claim theorems: planner augmentation (C6) -/

/-- Folding the `merged` loop of `planner_augment_experts` over a
duplicate-free candidate list appends exactly the accepted candidates not
already present, in candidate order. -/
theorem mergeAdd_foldl (adds : List String) :
    ∀ (cands : List String) (acc : List String), cands.Nodup →
      cands.foldl
        (fun acc item => if item ∈ adds ∧ item ∉ acc then acc ++ [item] else acc) acc
        = acc ++ cands.filter (fun i => decide (i ∈ adds ∧ i ∉ acc)) := by
  intro cands
  induction cands with
  | nil => intro acc _; simp
  | cons c cs ih =>
    intro acc hnd
    rw [List.nodup_cons] at hnd
    obtain ⟨hc_not, hcs⟩ := hnd
    simp only [List.foldl_cons]
    by_cases hc : c ∈ adds ∧ c ∉ acc
    · rw [if_pos hc, ih (acc ++ [c]) hcs]
      have hfilter : cs.filter (fun i => decide (i ∈ adds ∧ i ∉ acc ++ [c]))
          = cs.filter (fun i => decide (i ∈ adds ∧ i ∉ acc)) := by
        refine List.filter_congr ?_
        intro x hx
        have hxc : x ≠ c := fun he => hc_not (he ▸ hx)
        simp [List.mem_append, hxc]
      rw [hfilter]
      have hcons : (c :: cs).filter (fun i => decide (i ∈ adds ∧ i ∉ acc))
          = c :: cs.filter (fun i => decide (i ∈ adds ∧ i ∉ acc)) := by
        rw [List.filter_cons_of_pos]
        simpa using hc
      rw [hcons]
      simp [List.append_assoc]
    · rw [if_neg hc, ih acc hcs]
      have hcons : (c :: cs).filter (fun i => decide (i ∈ adds ∧ i ∉ acc))
          = cs.filter (fun i => decide (i ∈ adds ∧ i ∉ acc)) := by
        rw [List.filter_cons_of_neg]
        simpa using hc
      rw [hcons]

/-- The accepted additions are appended after `current` in the fixed
priority order of `_OPTIONAL_EXPERT_ORDER`, regardless of the order the
planner listed them in. -/
theorem mergeAdditions_eq (current : List String) (items : List PyValue) :
    mergeAdditions current items
      = current ++ OPTIONAL_EXPERT_ORDER.filter
          (fun i => decide (i ∈ plannerAdditions items ∧ i ∉ current)) := by
  rw [mergeAdditions]
  exact mergeAdd_foldl (plannerAdditions items) OPTIONAL_EXPERT_ORDER current (by decide)

/-- Claim C6 as amended: every completed planner invocation is absorbed —
non-zero exit, JSON-extraction failure and schema violations return the
current roster unchanged with a planner-failure note, and a successful parse
appends only allow-listed optional roles in the fixed priority order,
independent of the planner's ordering; a completed invocation never yields
an error.  A subprocess timeout, however, is not absorbed: it raises
`TimeoutExpired`, which `planner_augment_experts` does not catch. -/
theorem planner_failures_absorbed (current : List String) (fallback : ToolOutcome)
    (extract : String → Option (List (String × PyValue))) (rc : Int) (out err : String) :
    (rc ≠ 0 → containsSub err flagErrMarker = false →
      planner_augment_experts current (ToolOutcome.completed rc out err) fallback extract
        = Except.ok (current, Option.some ("planner_failed_exit_" ++ toString rc))) ∧
    (rc = 0 → extract out = Option.none →
      planner_augment_experts current (ToolOutcome.completed rc out err) fallback extract
        = Except.ok (current, Option.some "planner_invalid_json")) ∧
    (∀ payload, rc = 0 → extract out = Option.some payload →
      isPyList (dictGet payload "add_experts" (PyValue.list [])) = false →
      planner_augment_experts current (ToolOutcome.completed rc out err) fallback extract
        = Except.ok (current, Option.some "planner_invalid_schema")) ∧
    (∀ payload items, rc = 0 → extract out = Option.some payload →
      dictGet payload "add_experts" (PyValue.list []) = PyValue.list items →
      planner_augment_experts current (ToolOutcome.completed rc out err) fallback extract
        = Except.ok (current ++ OPTIONAL_EXPERT_ORDER.filter
            (fun i => decide (i ∈ plannerAdditions items ∧ i ∉ current)), Option.none)) ∧
    (∀ rc2 out2 err2,
      ∃ v, planner_augment_experts current (ToolOutcome.completed rc out err)
        (ToolOutcome.completed rc2 out2 err2) extract = Except.ok v) ∧
    planner_augment_experts current ToolOutcome.timeout fallback extract
      = Except.error "subprocess.TimeoutExpired" := by
  refine ⟨?_, ?_, ?_, ?_, ?_, rfl⟩
  · intro h1 h2
    simp only [planner_augment_experts]
    rw [if_neg (by simp [h2])]
    rw [planner_post, if_pos h1]
  · intro h1 hx
    simp only [planner_augment_experts]
    rw [if_neg (by simp [h1])]
    rw [planner_post, if_neg (by simp [h1]), hx]
    rfl
  · intro payload h1 hx hv
    simp only [planner_augment_experts]
    rw [if_neg (by simp [h1])]
    rw [planner_post, if_neg (by simp [h1]), hx]
    simp only [plannerParsed]
    revert hv
    cases dictGet payload "add_experts" (PyValue.list []) <;> intro hv <;>
      first
        | rfl
        | exact absurd hv (by simp [isPyList])
  · intro payload items h1 hx hd
    simp only [planner_augment_experts]
    rw [if_neg (by simp [h1])]
    rw [planner_post, if_neg (by simp [h1]), hx]
    simp only [plannerParsed]
    rw [hd]
    simp only [plannerPayloadValue]
    rw [mergeAdditions_eq]
  · intro rc2 out2 err2
    by_cases hcond : rc ≠ 0 ∧ containsSub err flagErrMarker
    · refine ⟨planner_post current rc2 out2 extract, ?_⟩
      simp only [planner_augment_experts]
      rw [if_pos hcond]
    · refine ⟨planner_post current rc out extract, ?_⟩
      simp only [planner_augment_experts]
      rw [if_neg hcond]

/-- Witness for amended C6: a non-zero exit is absorbed into a note with the
roster unchanged, and a successful parse listing `DBExpert` before
`BackendExpert` still appends them in the fixed priority order. -/
theorem planner_failures_absorbed_witness :
    planner_augment_experts ["SecurityExpert", "TestingExpert"]
        (ToolOutcome.completed 1 "" "boom") ToolOutcome.timeout extractFail
      = Except.ok (["SecurityExpert", "TestingExpert"],
          Option.some "planner_failed_exit_1") ∧
    planner_augment_experts ["SecurityExpert", "TestingExpert"]
        (ToolOutcome.completed 0 "out" "") ToolOutcome.timeout extractPlanner
      = Except.ok (["SecurityExpert", "TestingExpert", "BackendExpert", "DBExpert"],
          Option.none) := by
  constructor
  · exact (planner_failures_absorbed ["SecurityExpert", "TestingExpert"] ToolOutcome.timeout
      extractFail 1 "" "boom").1 (by decide) (by decide)
  · have h := (planner_failures_absorbed ["SecurityExpert", "TestingExpert"] ToolOutcome.timeout
      extractPlanner 0 "out" "").2.2.2.1
      [("add_experts", PyValue.list [PyValue.str "DBExpert", PyValue.str "BackendExpert"])]
      [PyValue.str "DBExpert", PyValue.str "BackendExpert"] rfl rfl rfl
    exact h.trans (congrArg Except.ok (by decide))

/-- Counterexample to claim C6 as stated: a planner subprocess timeout is a
tool-invocation failure that is not absorbed — `planner_augment_experts`
propagates the raised `TimeoutExpired` instead of returning the roster with
a note. -/
theorem planner_timeout_raises :
    planner_augment_experts ["SecurityExpert", "TestingExpert"] ToolOutcome.timeout
      (ToolOutcome.completed 0 "" "") extractFail
      = Except.error "subprocess.TimeoutExpired" := rfl

/-! ## Claim theorems: router (C9) -/

theorem keyword_fold_no_match (text : String) :
    ∀ (l : List (String × String)) (routed : List String),
      (∀ kw ∈ l, containsSub (strToLower text) kw.1 = false) →
      l.foldl
        (fun acc kw =>
          if containsSub (strToLower text) kw.1 = true ∧ kw.2 ∉ acc then acc ++ [kw.2]
          else acc)
        routed = routed := by
  intro l
  induction l with
  | nil => intro routed _; rfl
  | cons kw l ih =>
    intro routed h
    simp only [List.foldl_cons]
    rw [if_neg]
    · exact ih routed (fun kw' hkw' => h kw' (List.mem_cons_of_mem kw hkw'))
    · intro hc
      rw [h kw (List.mem_cons_self kw l)] at hc
      exact Bool.false_ne_true hc.1

theorem raisedBound_toNat_ge (m : Int) : 2 ≤ (raisedBound m).toNat := by
  rw [raisedBound]
  have h2 : (required_experts.length : Int) = 2 := by decide
  rw [h2]
  by_cases h : m < 2
  · rw [if_pos h]
    rfl
  · rw [if_neg h]
    omega

/-- Claim C9 as amended: the routing reason is `unknown_failure` exactly when
the structured result yields no failing step names and no expert was routed
(neither by the step map nor by a report keyword) — in particular it is
`unknown_failure` whenever no structured result is available and no keyword
matches, but also when a structured result is available whose steps all pass;
the two required roles are always the first two entries of the returned role
list, which is deduplicated and truncated to the requested maximum raised to
at least the required-role count. -/
theorem routing_reason_and_required (pr : Option PyValue) (text : String) (m : Int) :
    ((classify_and_route pr text m).reason = "unknown_failure" ↔
      ((collect_failing pr).1 = [] ∧ add_keyword_experts (collect_failing pr).2 text = [])) ∧
    (pr = Option.none →
      (∀ kw ∈ KEYWORD_TO_EXPERT, containsSub (strToLower text) kw.1 = false) →
      (classify_and_route pr text m).reason = "unknown_failure") ∧
    (classify_and_route pr text m).experts.take 2 = ["SecurityExpert", "TestingExpert"] ∧
    (classify_and_route pr text m).experts.Nodup ∧
    (classify_and_route pr text m).experts.length ≤ (raisedBound m).toNat := by
  have hreason : (classify_and_route pr text m).reason
      = if (collect_failing pr).1 = [] ∧ add_keyword_experts (collect_failing pr).2 text = []
        then "unknown_failure" else "pipeline_failure" := rfl
  have hexp : (classify_and_route pr text m).experts
      = ((required_experts ++ add_keyword_experts (collect_failing pr).2 text).foldl
          (dedupStep (fun _ => True)) []).take (raisedBound m).toNat := rfl
  obtain ⟨t, ht⟩ := dedupFold_req_head (fun _ => True) trivial trivial
    (add_keyword_experts (collect_failing pr).2 text)
  have hcands : required_experts ++ add_keyword_experts (collect_failing pr).2 text
      = "SecurityExpert" :: "TestingExpert" :: add_keyword_experts (collect_failing pr).2 text :=
    rfl
  rw [hcands] at hexp
  rw [ht] at hexp
  have hnod : (("SecurityExpert" :: "TestingExpert"
      :: add_keyword_experts (collect_failing pr).2 text).foldl
      (dedupStep (fun _ => True)) []).Nodup :=
    dedupFold_go_nodup _ _ [] List.nodup_nil
  rw [ht] at hnod
  refine ⟨?_, ?_, ?_, ?_, ?_⟩
  · rw [hreason]
    by_cases h : (collect_failing pr).1 = []
        ∧ add_keyword_experts (collect_failing pr).2 text = []
    · rw [if_pos h]
      simp [h]
    · rw [if_neg h]
      constructor
      · intro hc
        exact absurd hc (by decide)
      · intro hc
        exact absurd hc h
  · intro hpr hkw
    subst hpr
    rw [hreason]
    rw [if_pos]
    refine ⟨rfl, ?_⟩
    have hcf : (collect_failing Option.none).2 = [] := rfl
    rw [hcf, add_keyword_experts]
    exact keyword_fold_no_match text KEYWORD_TO_EXPERT [] hkw
  · rw [hexp]
    exact take_take_two _ _ t (raisedBound m).toNat (raisedBound_toNat_ge m)
  · rw [hexp]
    exact hnod.sublist (List.take_sublist _ _)
  · rw [hexp, List.length_take]
    omega

/-- Witness for amended C9: with no structured result and a report matching
no keyword the reason is `unknown_failure`; a failing `frontend_bind` step
routes the frontend role right after the two required roles. -/
theorem routing_reason_witness :
    (classify_and_route Option.none "zzz" 6).reason = "unknown_failure" ∧
    (classify_and_route (Option.some gatePayloadFrontendFail) "" 6).experts.take 2
      = ["SecurityExpert", "TestingExpert"] ∧
    (classify_and_route (Option.some gatePayloadFrontendFail) "" 6).experts
      = ["SecurityExpert", "TestingExpert", "FrontendExpert"] := by
  refine ⟨?_, ?_, ?_⟩
  · exact (routing_reason_and_required Option.none "zzz" 6).2.1 rfl (by decide)
  · exact (routing_reason_and_required (Option.some gatePayloadFrontendFail) "" 6).2.2.1
  · decide

/-- Counterexample to claim C9 as stated: a structured gate result is
available (so the claimed characterization demands `pipeline_failure`), yet
because every step passed and no keyword matched, the code reports
`unknown_failure`. -/
theorem unknown_failure_with_structured_result :
    (Option.some gatePayloadAllPass).isSome = true ∧
    (classify_and_route (Option.some gatePayloadAllPass) "" 6).reason
      = "unknown_failure" := by
  exact ⟨rfl, by decide⟩

/-! ## Claim theorems: spec resolution and the missing-spec exit (C7) -/

/-- Claim C7 as amended: with no (truthy) explicit spec path, an empty
discovery result, and generation disabled, `resolve_spec` returns no path
and a record whose mode tag is `missing_error` (the spec's name `missing`
does not match the code), and the runner's missing-spec early exit prints
the actionable three-option guidance and returns the reserved exit code 2,
distinct from 0 and 1. -/
theorem missing_spec_resolution (gen : String) (p : Option String)
    (hp : optStrTruthy p = false) :
    resolve_spec p false [] false gen
      = Except.ok ({ provided_spec := Option.none, discovered_candidates := []
                     chosen_spec := Option.none, generated_spec := Option.none
                     mode := "missing_error" }, Option.none) ∧
    run_swarm_spec_gate Option.none = Option.some (NO_SPEC_MESSAGE, "missing_spec", 2) ∧
    (2 : Int) ≠ 0 ∧ (2 : Int) ≠ 1 ∧
    containsSub NO_SPEC_MESSAGE "gen-spec" = true ∧
    containsSub NO_SPEC_MESSAGE "--gen-spec-if-missing" = true ∧
    containsSub NO_SPEC_MESSAGE "--spec /path/to/spec.md" = true := by
  refine ⟨?_, rfl, by decide, by decide, by decide, by decide, by decide⟩
  rw [resolve_spec.eq_def, if_neg (by simp [hp])]
  rfl

/-- Witness for amended C7: the fully concrete missing-spec scenario. -/
theorem missing_spec_resolution_witness :
    resolve_spec Option.none false [] false "artifacts/flow_next_spec/x/generated_spec.md"
      = Except.ok ({ provided_spec := Option.none, discovered_candidates := []
                     chosen_spec := Option.none, generated_spec := Option.none
                     mode := "missing_error" }, Option.none) :=
  (missing_spec_resolution "artifacts/flow_next_spec/x/generated_spec.md" Option.none
    (by decide)).1

/-- Counterexample to claim C7 as stated: in the missing-spec scenario the
record's mode tag is the string `missing_error`, not `missing`. -/
theorem missing_mode_counterexample :
    resolve_spec Option.none false [] false "g.md"
      = Except.ok ({ provided_spec := Option.none, discovered_candidates := []
                     chosen_spec := Option.none, generated_spec := Option.none
                     mode := "missing_error" }, Option.none) ∧
    "missing_error" ≠ "missing" := ⟨rfl, by decide⟩

/-! ## Claim theorems: executor (C5, C8) -/

/-- Claim C5: in non-dry-run mode, once the isolated workspace has been
successfully allocated, the cleanup of `_execute_one` runs on every exit
path of the body — including when any step raises — before the result or
exception propagates; a raised exception still propagates after cleanup, and
a tool timeout (captured by `_run_codex` as exit code 124) produces a `fail`
result rather than an exception, again with cleanup run. -/
theorem workspace_always_released (dry : Bool) (assignment : ExpertAssignment)
    (prepare : Bool × String)
    (codex : PyResult (Int × String × String))
    (enforce : PyResult (List String × List String))
    (patch_lines : PyResult (List String))
    (extract : String → Option (List (String × PyValue)))
    (pp tp : String)
    (hdry : dry = false) (halloc : prepare.1 = true) :
    (execute_one dry assignment prepare codex enforce patch_lines extract pp tp).2 = true ∧
    (∀ msg, codex = PyResult.exn msg →
      (execute_one dry assignment prepare codex enforce patch_lines extract pp tp).1
        = PyResult.exn msg) ∧
    (∀ out err cf bf patch, codex = PyResult.ok (124, out, err) →
      enforce = PyResult.ok (cf, bf) → patch_lines = PyResult.ok patch →
      ∃ r, (execute_one dry assignment prepare codex enforce patch_lines extract pp tp).1
        = PyResult.ok r ∧ r.status = "fail") := by
  subst hdry
  have hmain : execute_one false assignment prepare codex enforce patch_lines extract pp tp
      = (execute_one_body assignment codex enforce patch_lines extract pp tp, true) := by
    rw [execute_one, if_neg (by simp), if_neg (by simp [halloc])]
  refine ⟨?_, ?_, ?_⟩
  · rw [hmain]
  · intro msg hc
    rw [hmain]
    subst hc
    rfl
  · intro out err cf bf patch hc he hpl
    subst hc
    subst he
    subst hpl
    rw [hmain]
    refine ⟨_, rfl, ?_⟩
    simp only [execute_one_body, pyBind]
    rw [if_neg (by decide)]

/-- Witness for C5: with the workspace allocated and the tool step raising,
the result is the propagated exception and cleanup still ran. -/
theorem workspace_always_released_witness :
    (execute_one false secAssignment (true, "ok") (PyResult.exn "boom")
        (PyResult.ok ([], [])) (PyResult.ok []) extractFail "/p" "/t").2 = true ∧
    (execute_one false secAssignment (true, "ok") (PyResult.exn "boom")
        (PyResult.ok ([], [])) (PyResult.ok []) extractFail "/p" "/t").1
      = PyResult.exn "boom" :=
  ⟨(workspace_always_released false secAssignment (true, "ok") (PyResult.exn "boom")
      (PyResult.ok ([], [])) (PyResult.ok []) extractFail "/p" "/t" rfl rfl).1,
   (workspace_always_released false secAssignment (true, "ok") (PyResult.exn "boom")
      (PyResult.ok ([], [])) (PyResult.ok []) extractFail "/p" "/t" rfl rfl).2.1
      "boom" rfl⟩

/-- Claim C8: a changed path matching any global deny-list pattern is never
allowed, even when it also matches an allowed-path glob — a path is kept
exactly when it avoids the deny-list and matches an allowed glob; in the
allow-list enforcement the blocked list holds exactly the changed files that
are not allowed (they are reverted), and the surviving changed list exactly
the allowed ones. -/
theorem deny_list_always_wins (path : String) (allowed : List String)
    (changed : List String) :
    (matches_any path GLOBAL_DENY_PATTERNS = true → allowed_file path allowed = false) ∧
    (allowed_file path allowed = true ↔
      (matches_any path GLOBAL_DENY_PATTERNS = false ∧ matches_any path allowed = true)) ∧
    (∀ p, p ∈ (enforce_allowlist changed allowed).2 ↔
      (p ∈ changed ∧ allowed_file p allowed = false)) ∧
    (∀ p, p ∈ (enforce_allowlist changed allowed).1 ↔
      (p ∈ changed ∧ allowed_file p allowed = true)) := by
  refine ⟨?_, ?_, ?_, ?_⟩
  · intro h
    rw [allowed_file, if_pos h]
  · constructor
    · intro h
      by_cases hd : matches_any path GLOBAL_DENY_PATTERNS = true
      · rw [allowed_file, if_pos hd] at h
        exact absurd h (by decide)
      · rw [allowed_file, if_neg hd] at h
        exact ⟨by simpa using hd, h⟩
    · intro ⟨hd, ha⟩
      rw [allowed_file, if_neg (by simp [hd]), ha]
  · intro p
    have hmem : p ∈ (enforce_allowlist changed allowed).2
        ↔ p ∈ (changed.filter (fun rel => !allowed_file rel allowed)).dedup := by
      rw [enforce_allowlist]
      exact (sortLe_perm strLe _).mem_iff
    rw [hmem, List.mem_dedup, List.mem_filter]
    simp
  · intro p
    rw [enforce_allowlist]
    rw [List.mem_filter]

/-- Witness for C8: a path under a `secrets` directory matches the docs
role's `docs/**` ownership glob yet is denied by the global deny-list. -/
theorem deny_list_always_wins_witness :
    allowed_file "docs/secrets/creds.md" ["docs/**"] = false ∧
    matches_any "docs/secrets/creds.md" ["docs/**"] = true :=
  ⟨(deny_list_always_wins "docs/secrets/creds.md" ["docs/**"] []).1 (by decide),
   by decide⟩

end Swarm
